import Mathlib

/-!
The program tcpconnlat: the userspace consumer of `cmd/tcpconnect/main.go`

A shallow embedding of the Go program `main.go`:

* the part of Go's `encoding/binary` that `main` calls (`binary.Read` with
  `binary.LittleEndian` into a pointer to the struct `event`), following the
  library's `sizeof`, `Read` and `decoder.value`;
* the struct `event` and its reflected type;
* the consumer loop of `main` (one iteration per value returned by
  `rd.Read()`), as a function of the values the reader returns;
* `main` itself: the setup calls, the `defer` stack, `log.Fatalf`
  (which is `os.Exit(1)` after printing: deferred calls do not run) and the
  normal return (deferred calls run last-in first-out).

External collaborators (the kernel, `link.Kprobe`, `perf.Reader`) are inputs:
whether each setup call succeeds, and the finite sequence of values that the
successive calls of `rd.Read()` return.
-/

namespace TcpConnLat

/-! ## Reflected types -/

/-- The kinds of Go basic types that matter for a binary record.  `Int` and
`Uint` are Go's platform-sized `int` and `uint`. -/
inductive Kind where
  | Uint8 | Uint16 | Uint32 | Uint64
  | Int8 | Int16 | Int32 | Int64
  | Int | Uint
  deriving DecidableEq, Repr

/-- A field type: a basic type or an array of basic types (`[16]byte` is
`array 16 Uint8`). -/
inductive GoType where
  | basic (k : Kind)
  | array (len : Nat) (elem : Kind)
  deriving DecidableEq, Repr

/-- One field of a struct type, as `reflect.StructField` gives it. -/
structure StructField where
  Name : String
  Typ : GoType
  deriving DecidableEq, Repr

/-- Go's rule for an exported identifier: its first character is an upper
case letter. -/
def StructField.exported (f : StructField) : Bool :=
  match f.Name.data with
  | [] => false
  | c :: _ => c.isUpper

/-- The reflected type of `type event struct` (main.go, lines 100 to 111):
the ten fields in declaration order. -/
def eventType : List StructField :=
  [ ⟨"saddrV4", .basic .Uint32⟩,
    ⟨"saddrV6", .array 16 .Uint8⟩,
    ⟨"daddrV4", .basic .Uint32⟩,
    ⟨"daddrV6", .array 16 .Uint8⟩,
    ⟨"comm", .array 16 .Uint8⟩,
    ⟨"tsUs", .basic .Uint64⟩,
    ⟨"af", .basic .Int⟩,
    ⟨"pid", .basic .Uint32⟩,
    ⟨"uid", .basic .Uint32⟩,
    ⟨"dport", .basic .Uint16⟩ ]

/-- The Go struct `event`: unsigned integers as naturals below their width,
`[16]byte` as a list of sixteen byte values, `af int` as an integer. -/
structure event where
  saddrV4 : Nat
  saddrV6 : List Nat
  daddrV4 : Nat
  daddrV6 : List Nat
  comm : List Nat
  tsUs : Nat
  af : Int
  pid : Nat
  uid : Nat
  dport : Nat
  deriving DecidableEq, Repr

/-- The zero value of `event`, what `var v event` holds at the top of each
loop iteration. -/
def event.zero : event :=
  { saddrV4 := 0, saddrV6 := List.replicate 16 0, daddrV4 := 0,
    daddrV6 := List.replicate 16 0, comm := List.replicate 16 0,
    tsUs := 0, af := 0, pid := 0, uid := 0, dport := 0 }

/-! ## encoding/binary -/

namespace binary

/-- The `sizeof` of `encoding/binary` on a basic kind: the fixed-size
arithmetic kinds return their size in bytes; every other kind falls out of
the switch and returns `-1` ("the type is not acceptable").  `int` and `uint`
are not fixed-size. -/
def sizeofKind : Kind → Int
  | .Uint8 | .Int8 => 1
  | .Uint16 | .Int16 => 2
  | .Uint32 | .Int32 => 4
  | .Uint64 | .Int64 => 8
  | .Int | .Uint => -1

/-- The `sizeof` of `encoding/binary` on a field type: for an array,
`s * t.Len()` when the element size `s` is `>= 0`, else `-1`. -/
def sizeof : GoType → Int
  | .basic k => sizeofKind k
  | .array len elem =>
    let s := sizeofKind elem
    if s ≥ 0 then s * (len : Int) else -1

/-- The `reflect.Struct` case of `sizeof`: `sum := 0`, then for each field
`s := sizeof(field type)`; `if s < 0 return -1`; `sum += s`; finally
`return sum`. -/
def sizeofFields (sum : Int) : List StructField → Int
  | [] => sum
  | f :: fs =>
    let s := sizeof f.Typ
    if s < 0 then -1 else sizeofFields (sum + s) fs

/-- The function `dataSize` on a struct value: the `sizeof` of its type. -/
def dataSize (t : List StructField) : Int := sizeofFields 0 t

/-- The errors `binary.Read` can return here: its own "invalid type" error,
and the two errors of `io.ReadFull` on a buffer that is too short. -/
inductive Error where
  | invalidType
  | EOF
  | ErrUnexpectedEOF
  deriving DecidableEq, Repr

/-- A decoded basic value. -/
inductive Scalar where
  | uint (n : Nat)
  | int (i : Int)
  deriving DecidableEq, Repr

/-- A decoded field value. -/
inductive Value where
  | scalar (s : Scalar)
  | array (elems : List Scalar)
  deriving DecidableEq, Repr

/-- The decoder of `encoding/binary`: the bytes read and the current
offset. -/
structure decoder where
  buf : List UInt8
  offset : Nat
  deriving DecidableEq, Repr

/-- The little-endian value of a run of bytes (`binary.LittleEndian.Uint16`,
`Uint32`, `Uint64`: byte `i` is shifted left by `8 * i`). -/
def littleEndian : List UInt8 → Nat
  | [] => 0
  | b :: bs => b.toNat + 256 * littleEndian bs

/-- Read `n` bytes at the offset as an unsigned little-endian integer and
advance the offset (`d.uint8`, `d.uint16`, `d.uint32`, `d.uint64`). -/
def decoder.uint (d : decoder) (n : Nat) : Nat × decoder :=
  (littleEndian ((d.buf.drop d.offset).take n), { d with offset := d.offset + n })

/-- The Go conversion of an unsigned `n`-byte value to the signed type of the
same width (two's complement). -/
def toSigned (n : Nat) (u : Nat) : Int :=
  if u < 2 ^ (8 * n - 1) then (u : Int) else (u : Int) - (2 : Int) ^ (8 * n)

/-- The basic cases of `decoder.value`: an unsigned kind reads its width as
an unsigned value, a signed kind reads it and converts.  `Int` and `Uint` have
no case in the switch: nothing is read and the (zero) value stays. -/
def decoder.basic (d : decoder) : Kind → Scalar × decoder
  | .Uint8 => let r := d.uint 1; (.uint r.1, r.2)
  | .Uint16 => let r := d.uint 2; (.uint r.1, r.2)
  | .Uint32 => let r := d.uint 4; (.uint r.1, r.2)
  | .Uint64 => let r := d.uint 8; (.uint r.1, r.2)
  | .Int8 => let r := d.uint 1; (.int (toSigned 1 r.1), r.2)
  | .Int16 => let r := d.uint 2; (.int (toSigned 2 r.1), r.2)
  | .Int32 => let r := d.uint 4; (.int (toSigned 4 r.1), r.2)
  | .Int64 => let r := d.uint 8; (.int (toSigned 8 r.1), r.2)
  | .Int => (.int 0, d)
  | .Uint => (.uint 0, d)

/-- The `reflect.Array` case of `decoder.value`: the elements one after the
other. -/
def decoder.elems (d : decoder) (k : Kind) : Nat → List Scalar × decoder
  | 0 => ([], d)
  | n + 1 =>
    let r := d.basic k
    let rest := decoder.elems r.2 k n
    (r.1 :: rest.1, rest.2)

/-- Whether `decoder.value` stores anything into a value of this type: every
basic value is stored with `SetUint` or `SetInt`; an array stores one value
per element, so an empty array stores nothing. -/
def stores : GoType → Bool
  | .basic k => decide (sizeofKind k ≥ 0)
  | .array len elem => decide (0 < len) && decide (sizeofKind elem ≥ 0)

/-- One field through `decoder.value`.  `none` is the run-time panic of
`reflect.Value.SetUint` / `SetInt` on a value obtained through an unexported
struct field (such a value is not settable). -/
def decoder.value (d : decoder) (settable : Bool) : GoType → Option (Value × decoder)
  | .basic k =>
    if stores (.basic k) && !settable then none
    else let r := d.basic k; some (.scalar r.1, r.2)
  | .array len elem =>
    if stores (.array len elem) && !settable then none
    else let r := d.elems elem len; some (.array r.1, r.2)

/-- The zero value of a field type. -/
def zeroValue : GoType → Value
  | .basic .Int8 | .basic .Int16 | .basic .Int32 | .basic .Int64 | .basic .Int =>
    .scalar (.int 0)
  | .basic _ => .scalar (.uint 0)
  | .array len .Int8 | .array len .Int16 | .array len .Int32 | .array len .Int64
  | .array len .Int => .array (List.replicate len (.int 0))
  | .array len _ => .array (List.replicate len (.uint 0))

/-- `decoder.skip`: advance the offset by the size of the field, the field
keeps its zero value. -/
def decoder.skip (d : decoder) (t : GoType) : Value × decoder :=
  (zeroValue t, { d with offset := d.offset + (sizeof t).toNat })

/-- The `reflect.Struct` case of `decoder.value`: for each field in order,
`if v.CanSet() || t.Field(i).Name != "_"` then `d.value(v)` else `d.skip(v)`.
A field can be set exactly when it is exported. -/
def decoder.fields (d : decoder) : List StructField → Option (List Value × decoder)
  | [] => some ([], d)
  | f :: fs =>
    if f.exported || f.Name != "_" then
      match d.value f.exported f.Typ with
      | none => none
      | some (v, d1) =>
        match decoder.fields d1 fs with
        | none => none
        | some (vs, d2) => some (v :: vs, d2)
    else
      let r := d.skip f.Typ
      match decoder.fields r.2 fs with
      | none => none
      | some (vs, d2) => some (r.1 :: vs, d2)

/-- What a call of `binary.Read` ends in: `nil` with the decoded field
values, an error, or a run-time panic. -/
inductive Result where
  | ok (vals : List Value)
  | error (e : Error)
  | panicked
  deriving DecidableEq, Repr

/-- The `io.ReadFull` of a `bytes.Buffer` holding `data` into a buffer of
`size` bytes: the first `size` bytes; on a shorter buffer `io.EOF` when no
byte was read and `io.ErrUnexpectedEOF` otherwise. -/
def readFull (data : List UInt8) (size : Nat) : Except Error (List UInt8) :=
  if size ≤ data.length then .ok (data.take size)
  else if data.length = 0 then .error .EOF
  else .error .ErrUnexpectedEOF

/-- The call `binary.Read(bytes.NewBuffer(data), binary.LittleEndian, &v)`
for `v` of the struct type `t` (a pointer to a struct takes the reflection
path): `size := dataSize(v)`; `if size < 0` return the error
"binary.Read: invalid type"; read `size` bytes with `io.ReadFull`, returning
its error; then `d.value(v)`. -/
def Read (t : List StructField) (data : List UInt8) : Result :=
  let size := dataSize t
  if size < 0 then .error .invalidType
  else
    match readFull data size.toNat with
    | .error e => .error e
    | .ok buf =>
      match decoder.fields { buf := buf, offset := 0 } t with
      | none => .panicked
      | some (vals, _) => .ok vals

end binary

/-- Store decoded field values into an `event`, field by field in
declaration order (what `decoder.value` does through reflection on `&v`). -/
def event.store (v : event) : List binary.Value → event
  | [ .scalar (.uint a), .array b, .scalar (.uint c), .array d, .array e,
      .scalar (.uint f), .scalar (.int g), .scalar (.uint h), .scalar (.uint i),
      .scalar (.uint j) ] =>
    let bytes := fun (xs : List binary.Scalar) =>
      xs.map fun s => match s with | .uint n => n | .int z => z.toNat
    { saddrV4 := a, saddrV6 := bytes b, daddrV4 := c, daddrV6 := bytes d,
      comm := bytes e, tsUs := f, af := g, pid := h, uid := i, dport := j }
  | _ => v

/-! ## The perf reader, as far as `main` sees it -/

namespace perf

/-- The `perf.Record` that `rd.Read()` returns: the CPU, the raw sample and
the number of lost samples (`uint64`). -/
structure Record where
  CPU : Int
  RawSample : List UInt8
  LostSamples : Nat
  deriving DecidableEq, Repr

/-- The error value of `rd.Read()`: the closed indication, or any other
error (with its text). -/
inductive Error where
  | closed
  | other (msg : String)
  deriving DecidableEq, Repr

/-- The function `perf.IsClosed`. -/
def IsClosed : Error → Bool
  | .closed => true
  | .other _ => false

end perf

/-- What one call `record, err := rd.Read()` returns: both values. -/
structure ReadReturn where
  record : perf.Record
  err : Option perf.Error
  deriving DecidableEq, Repr

/-- The handles `main` acquires, named after its variables. -/
inductive Handle where
  | objs | tcpv4kp | tcpv4krp | tcpv6kp | tcpv6krp | rd
  deriving DecidableEq, Repr

/-- The calls of the loop to the reporting sink (the `log` package). -/
inductive Report where
  /-- The line "reading from perf event reader: ..." (main.go, line 76). -/
  | readError (e : perf.Error)
  /-- The line "ring event perf buffer is full, dropped n samples" (line 80). -/
  | lostSamples (n : Nat)
  /-- The line "failed to parse perf event: ..." (line 90). -/
  | parseError (e : binary.Error)
  /-- The call `log.Println(v)` (line 94). -/
  | event (v : event)
  deriving DecidableEq, Repr

/-- What `main` does that its environment can observe, in program order. -/
inductive Action where
  | setrlimit
  | loadObjects
  | kprobe (symbol : String)
  | kretprobe (symbol : String)
  | waiting
  | newReader
  /-- A call of `rd.Read()` that returned `r`. -/
  | read (r : ReadReturn)
  | report (r : Report)
  /-- The printing half of `log.Fatalf`. -/
  | fatal (msg : String)
  | close (h : Handle)
  deriving DecidableEq, Repr

/-- How control leaves one iteration of the `for` loop. -/
inductive Flow where
  /-- The next iteration: `continue`, or the end of the loop body. -/
  | next
  /-- The statement `return` (line 74). -/
  | ret
  /-- A run-time panic inside `binary.Read`. -/
  | panicked
  deriving DecidableEq, Repr

/-- The body of the `for` loop (main.go, lines 69 to 94) after `rd.Read()`
returned `r`: the reports it makes, in order, and how it leaves. -/
def iteration (r : ReadReturn) : List Report × Flow :=
  let v := event.zero
  let onRecord : List Report × Flow :=
    if r.record.LostSamples != 0 then
      ([.lostSamples r.record.LostSamples], .next)
    else
      match binary.Read eventType r.record.RawSample with
      | .error e => ([.parseError e], .next)
      | .panicked => ([], .panicked)
      | .ok vals => ([.event (v.store vals)], .next)
  match r.err with
  | some e =>
    if perf.IsClosed e then ([], .ret)
    else (.readError e :: onRecord.1, onRecord.2)
  | none => onRecord

/-- How the loop stands after the reads it was given. -/
inductive LoopEnd where
  /-- The loop executed `return`. -/
  | returned
  /-- The loop is in `rd.Read()` again, waiting for the next value. -/
  | reading
  /-- A panic left the loop. -/
  | panicked
  deriving DecidableEq, Repr

/-- The `for` loop on the values the successive calls of `rd.Read()` return:
the actions performed and how the loop stands.  Values after the one on which
the loop left are never read. -/
def consume : List ReadReturn → List Action × LoopEnd
  | [] => ([], .reading)
  | r :: rs =>
    let it := iteration r
    let acts := Action.read r :: it.1.map Action.report
    match it.2 with
    | .ret => (acts, .returned)
    | .panicked => (acts, .panicked)
    | .next =>
      let rest := consume rs
      (acts ++ rest.1, rest.2)

/-- The environment of one run of `main`: whether each setup call succeeds,
and the values the reader returns. -/
structure Env where
  setrlimitOk : Bool
  loadOk : Bool
  tcpv4kpOk : Bool
  tcpv4krpOk : Bool
  tcpv6kpOk : Bool
  tcpv6krpOk : Bool
  readerOk : Bool
  reads : List ReadReturn
  deriving DecidableEq, Repr

/-- How a run of `main` ends. -/
inductive Termination where
  /-- The call `os.Exit(code)` inside `log.Fatalf`: the process ends at once. -/
  | exited (code : Nat)
  /-- The function `main` returned: exit status 0. -/
  | returned
  /-- The process is blocked in `rd.Read()`. -/
  | reading
  /-- A panic unwound `main`. -/
  | panicked
  deriving DecidableEq, Repr

/-- The call `log.Fatalf(msg)`: print, then `os.Exit(1)`.  The process ends
immediately; deferred functions are not run. -/
def fatalf (trace : List Action) (msg : String) : List Action × Termination :=
  (trace ++ [.fatal msg], .exited 1)

/-- Leaving `main` by `return` or by a panic: the deferred calls run, last
deferred first.  `defers` is the defer stack, most recent first. -/
def runDeferred (defers : List Handle) : List Action :=
  defers.map Action.close

/-- The function `main` (main.go, lines 18 to 96). -/
def main (env : Env) : List Action × Termination :=
  let trace := [Action.setrlimit]
  if !env.setrlimitOk then fatalf trace "failed to set temporary rlimit" else
  let trace := trace ++ [Action.loadObjects]
  if !env.loadOk then fatalf trace "failed to load objects" else
  let defers := [Handle.objs]
  let trace := trace ++ [Action.kprobe "tcp_v4_connect"]
  if !env.tcpv4kpOk then fatalf trace "opening tcp_v4_connect kprobe" else
  let defers := Handle.tcpv4kp :: defers
  let trace := trace ++ [Action.kretprobe "tcp_v4_connect"]
  if !env.tcpv4krpOk then fatalf trace "opening tcp_v4_connect kretprobe" else
  let defers := Handle.tcpv4krp :: defers
  let trace := trace ++ [Action.kprobe "tcp_v6_connect"]
  if !env.tcpv6kpOk then fatalf trace "opening tcp_v6_connect kprobe" else
  let defers := Handle.tcpv6kp :: defers
  let trace := trace ++ [Action.kretprobe "tcp_v6_connect"]
  if !env.tcpv6krpOk then fatalf trace "opening tcp_v6_connect kretprobe" else
  let defers := Handle.tcpv6krp :: defers
  let trace := trace ++ [Action.waiting, Action.newReader]
  if !env.readerOk then fatalf trace "creating perf event reader" else
  let defers := Handle.rd :: defers
  let loop := consume env.reads
  match loop.2 with
  | .returned => (trace ++ loop.1 ++ runDeferred defers, .returned)
  | .panicked => (trace ++ loop.1 ++ runDeferred defers, .panicked)
  | .reading => (trace ++ loop.1, .reading)

/-! ## The record the producer writes -/

/-- The `n` little-endian bytes of `x` (its value modulo `256 ^ n`). -/
def leBytes : Nat → Nat → List UInt8
  | 0, _ => []
  | n + 1, x => UInt8.ofNat (x % 256) :: leBytes n (x / 256)

/-- Modelled from the spec: the producer (the BPF program
`bpf/tcpconnect.bpf.c`, not among the sources) writes the record of spec
section 6: the ten fields in order, without padding, multi-byte integers
little-endian, the address-family discriminant as a signed integer of `w`
bytes (two's complement). -/
def encodeEvent (w : Nat) (e : event) : List UInt8 :=
  leBytes 4 e.saddrV4
  ++ e.saddrV6.map UInt8.ofNat
  ++ leBytes 4 e.daddrV4
  ++ e.daddrV6.map UInt8.ofNat
  ++ e.comm.map UInt8.ofNat
  ++ leBytes 8 e.tsUs
  ++ leBytes w (e.af % (256 : Int) ^ w).toNat
  ++ leBytes 4 e.pid
  ++ leBytes 4 e.uid
  ++ leBytes 2 e.dport

/-- The events handed to the sink, in order. -/
def eventsOf : List Action → List event
  | [] => []
  | .report (.event v) :: as => v :: eventsOf as
  | _ :: as => eventsOf as

/-- The reports made to the sink, in order. -/
def reportsOf : List Action → List Report
  | [] => []
  | .report r :: as => r :: reportsOf as
  | _ :: as => reportsOf as

/-- The handles closed, in order. -/
def closesOf : List Action → List Handle
  | [] => []
  | .close h :: as => h :: closesOf as
  | _ :: as => closesOf as

/-- The number of completed calls of `rd.Read()`. -/
def readsOf : List Action → Nat
  | [] => 0
  | .read _ :: as => readsOf as + 1
  | _ :: as => readsOf as

/-- Whether the perf reader was created. -/
def createsReader (as : List Action) : Bool := as.contains Action.newReader

/-! ## Fixtures -/

/-- An IPv4 connect event: 127.0.0.1 to 10.0.0.1, port 443, command "curl",
`af = 2` (AF_INET). -/
def sampleEvent : event :=
  { saddrV4 := 0x0100007f, saddrV6 := List.replicate 16 0,
    daddrV4 := 0x0100000a, daddrV6 := List.replicate 16 0,
    comm := [99, 117, 114, 108] ++ List.replicate 12 0,
    tsUs := 1700000000, af := 2, pid := 4242, uid := 1000, dport := 443 }

/-- A read that returns the 82-byte record of `sampleEvent` (address family
written on 8 bytes), no lost samples, no error. -/
def sampleRead : ReadReturn :=
  ⟨⟨0, encodeEvent 8 sampleEvent, 0⟩, none⟩

/-- A read that returns a 5-byte record, no lost samples, no error. -/
def shortRead : ReadReturn :=
  ⟨⟨0, [1, 2, 3, 4, 5], 0⟩, none⟩

/-- A read that returns the closed indication. -/
def closedRead : ReadReturn :=
  ⟨⟨0, [], 0⟩, some .closed⟩

/-- The actions of a setup in which every call succeeds, up to the creation
of the reader. -/
def setupTrace : List Action :=
  [ .setrlimit, .loadObjects, .kprobe "tcp_v4_connect", .kretprobe "tcp_v4_connect",
    .kprobe "tcp_v6_connect", .kretprobe "tcp_v6_connect", .waiting, .newReader ]

/-- For comparison only, not a type of the program: a struct type with the
layout of `event` that `encoding/binary` accepts, every field exported and
the address family an `int64`. -/
def exportedRecordType : List StructField :=
  [ ⟨"SaddrV4", .basic .Uint32⟩,
    ⟨"SaddrV6", .array 16 .Uint8⟩,
    ⟨"DaddrV4", .basic .Uint32⟩,
    ⟨"DaddrV6", .array 16 .Uint8⟩,
    ⟨"Comm", .array 16 .Uint8⟩,
    ⟨"TsUs", .basic .Uint64⟩,
    ⟨"Af", .basic .Int64⟩,
    ⟨"Pid", .basic .Uint32⟩,
    ⟨"Uid", .basic .Uint32⟩,
    ⟨"Dport", .basic .Uint16⟩ ]

/-- For comparison only, not a type of the program: the fields of `event`
with `af` declared `int64`, the names unexported as in the program. -/
def unexportedRecordType : List StructField :=
  eventType.map fun f => if f.Name = "af" then ⟨"af", .basic .Int64⟩ else f

/-! ## Lemmas on `binary.Read` -/

set_option maxRecDepth 100000 in
/-- The library model decodes: on a fixed-size struct type with exported
fields, `binary.Read` of the 82-byte record of `sampleEvent` succeeds and
stores the fields of `sampleEvent`. -/
theorem Read_exportedRecordType_sample :
    (match binary.Read exportedRecordType (encodeEvent 8 sampleEvent) with
      | .ok vals => some (event.zero.store vals)
      | _ => none) = some sampleEvent := by
  decide

set_option maxRecDepth 100000 in
/-- The library model on a short buffer: `io.ErrUnexpectedEOF` after some
bytes, `io.EOF` after none. -/
theorem Read_exportedRecordType_short :
    binary.Read exportedRecordType [1, 2, 3, 4, 5] = .error .ErrUnexpectedEOF
    ∧ binary.Read exportedRecordType [] = .error .EOF := by
  decide

set_option maxRecDepth 100000 in
/-- The library model on unexported fields of fixed size: the first store
panics. -/
theorem Read_unexportedRecordType_sample :
    binary.Read unexportedRecordType (encodeEvent 8 sampleEvent) = .panicked := by
  decide


theorem dataSize_eventType : binary.dataSize eventType = -1 := by
  decide

theorem Read_eventType (data : List UInt8) :
    binary.Read eventType data = .error .invalidType := by
  simp [binary.Read, dataSize_eventType]

/-! ## Lemmas on the loop -/

theorem iteration_closed (rec : perf.Record) :
    iteration ⟨rec, some .closed⟩ = ([], .ret) := by
  simp [iteration, perf.IsClosed]

theorem iteration_lost (rec : perf.Record) (h : rec.LostSamples ≠ 0) :
    iteration ⟨rec, none⟩ = ([.lostSamples rec.LostSamples], .next) := by
  simp [iteration, h]

theorem iteration_sample (rec : perf.Record) (h : rec.LostSamples = 0) :
    iteration ⟨rec, none⟩ = ([.parseError .invalidType], .next) := by
  simp [iteration, h, Read_eventType]

theorem iteration_none_flow (rec : perf.Record) :
    (iteration ⟨rec, none⟩).2 = .next ∧ (iteration ⟨rec, none⟩).1.length = 1 := by
  by_cases h : rec.LostSamples = 0
  · simp [iteration_sample rec h]
  · simp [iteration_lost rec h]

theorem iteration_other (rec : perf.Record) (msg : String) :
    iteration ⟨rec, some (.other msg)⟩
      = (.readError (.other msg) :: (iteration ⟨rec, none⟩).1, .next) := by
  by_cases h : rec.LostSamples = 0 <;> simp [iteration, perf.IsClosed, h, Read_eventType]

theorem iteration_flow (r : ReadReturn) :
    (iteration r).2 = if r.err = some .closed then .ret else .next := by
  obtain ⟨rec, err⟩ := r
  cases err with
  | none => simp [(iteration_none_flow rec).1]
  | some e =>
    cases e with
    | closed => simp [iteration_closed]
    | other msg => simp [iteration_other]

theorem iteration_no_event (r : ReadReturn) :
    eventsOf ((iteration r).1.map Action.report) = [] := by
  obtain ⟨rec, err⟩ := r
  have hn : eventsOf ((iteration ⟨rec, none⟩).1.map Action.report) = [] := by
    by_cases h : rec.LostSamples = 0
    · simp [iteration_sample rec h, eventsOf]
    · simp [iteration_lost rec h, eventsOf]
  cases err with
  | none => exact hn
  | some e =>
    cases e with
    | closed => simp [iteration_closed, eventsOf]
    | other msg =>
      rw [iteration_other]
      simpa [eventsOf] using hn

theorem consume_cons_next (r : ReadReturn) (rs : List ReadReturn)
    (h : r.err ≠ some .closed) :
    consume (r :: rs)
      = (Action.read r :: (iteration r).1.map Action.report ++ (consume rs).1,
          (consume rs).2) := by
  have hf : (iteration r).2 = .next := by simp [iteration_flow, h]
  simp [consume, hf]

theorem consume_cons_closed (rec : perf.Record) (rs : List ReadReturn) :
    consume (⟨rec, some .closed⟩ :: rs) = ([Action.read ⟨rec, some .closed⟩], .returned) := by
  simp [consume, iteration_closed]

theorem consume_end (reads : List ReadReturn) :
    (consume reads).2
      = if reads.any (fun r => decide (r.err = some .closed)) then .returned else .reading := by
  induction reads with
  | nil => simp [consume]
  | cons r rs ih =>
    by_cases h : r.err = some .closed
    · obtain ⟨rec, err⟩ := r
      simp only at h
      subst h
      simp [consume_cons_closed]
    · simp [consume_cons_next r rs h, ih, h]

theorem consume_append_closed (pre post : List ReadReturn) (rec : perf.Record)
    (h : ∀ r ∈ pre, r.err ≠ some .closed) :
    consume (pre ++ ⟨rec, some .closed⟩ :: post)
      = ((consume pre).1 ++ [Action.read ⟨rec, some .closed⟩], .returned) := by
  induction pre with
  | nil =>
    rw [List.nil_append, consume_cons_closed]
    simp [consume]
  | cons r rs ih =>
    have hr : r.err ≠ some .closed := h r (by simp)
    have hrs : ∀ x ∈ rs, x.err ≠ some .closed := fun x hx => h x (by simp [hx])
    rw [List.cons_append, consume_cons_next r _ hr, consume_cons_next r rs hr, ih hrs]
    simp

theorem consume_reading (pre : List ReadReturn) (h : ∀ r ∈ pre, r.err ≠ some .closed) :
    (consume pre).2 = .reading := by
  rw [consume_end]
  have : pre.any (fun r => decide (r.err = some .closed)) = false := by
    simpa [List.any_eq_false] using h
  simp [this]

theorem closesOf_append (as bs : List Action) :
    closesOf (as ++ bs) = closesOf as ++ closesOf bs := by
  induction as with
  | nil => rfl
  | cons a as ih => cases a <;> simp [closesOf, ih]

theorem eventsOf_append (as bs : List Action) :
    eventsOf (as ++ bs) = eventsOf as ++ eventsOf bs := by
  induction as with
  | nil => rfl
  | cons a as ih =>
    cases a with
    | report r => cases r <;> simp [eventsOf, ih]
    | _ => simp [eventsOf, ih]

theorem closesOf_reports (rs : List Report) : closesOf (rs.map Action.report) = [] := by
  induction rs with
  | nil => rfl
  | cons r rs ih => simp [closesOf, ih]

theorem closesOf_consume (reads : List ReadReturn) : closesOf (consume reads).1 = [] := by
  induction reads with
  | nil => simp [consume, closesOf]
  | cons r rs ih =>
    by_cases h : r.err = some .closed
    · obtain ⟨rec, err⟩ := r
      simp only at h
      subst h
      simp [consume_cons_closed, closesOf]
    · simp [consume_cons_next r rs h, closesOf, closesOf_append, closesOf_reports, ih]

theorem eventsOf_consume (reads : List ReadReturn) : eventsOf (consume reads).1 = [] := by
  induction reads with
  | nil => simp [consume, eventsOf]
  | cons r rs ih =>
    by_cases h : r.err = some .closed
    · obtain ⟨rec, err⟩ := r
      simp only at h
      subst h
      simp [consume_cons_closed, eventsOf]
    · simp [consume_cons_next r rs h, eventsOf, eventsOf_append, iteration_no_event, ih]

theorem main_setup_ok (reads : List ReadReturn) :
    main ⟨true, true, true, true, true, true, true, reads⟩
      = match (consume reads).2 with
        | .returned =>
          (setupTrace ++ (consume reads).1
            ++ [.close .rd, .close .tcpv6krp, .close .tcpv6kp, .close .tcpv4krp,
                .close .tcpv4kp, .close .objs], .returned)
        | .panicked =>
          (setupTrace ++ (consume reads).1
            ++ [.close .rd, .close .tcpv6krp, .close .tcpv6kp, .close .tcpv4krp,
                .close .tcpv4kp, .close .objs], .panicked)
        | .reading => (setupTrace ++ (consume reads).1, .reading) := by
  simp [main, setupTrace, runDeferred]

/-! ## The claims -/

/-- C1 (round trip of the event record), on the code: for every width `w` of
the address family and every event `e`, `binary.Read` of the record that
encodes `e` does not succeed: it returns the error "invalid type", because
the struct `event` has the field `af int` and `int` is not a fixed-size type
for `encoding/binary`.  In particular the loop reports a parse error, not an
event, for the record of `sampleEvent`. -/
theorem C1_roundtrip_decode_rejected :
    (∀ (w : Nat) (e : event),
      binary.Read eventType (encodeEvent w e) = binary.Result.error binary.Error.invalidType)
    ∧ iteration sampleRead = ([Report.parseError binary.Error.invalidType], Flow.next) :=
  ⟨fun w e => Read_eventType (encodeEvent w e), iteration_sample _ rfl⟩

/-- C2 (wire layout of the decode step), on the code: the struct `event` has
no fixed record size (`dataSize` is `-1`, since `sizeof` of `int` is `-1`), and
the decode step reads no field at any offset: on every raw record, of any
length, `binary.Read` returns the error "invalid type" before it reads a
byte; so does it on 82 zero bytes. -/
theorem C2_event_has_no_fixed_size :
    binary.dataSize eventType = -1
    ∧ binary.sizeof (GoType.basic Kind.Int) = -1
    ∧ (∀ raw : List UInt8,
        binary.Read eventType raw = binary.Result.error binary.Error.invalidType)
    ∧ binary.Read eventType (List.replicate 82 0)
        = binary.Result.error binary.Error.invalidType :=
  ⟨dataSize_eventType, rfl, Read_eventType, Read_eventType _⟩

/-- C3 (malformed record handling), on the code: a read without error and
without lost samples makes exactly one parse-error report and the loop goes
on, whatever the bytes are; so the 5-byte record is reported once and the
loop continues, but the well-formed record read next is reported as a parse
error as well, not as an event. -/
theorem C3_short_then_wellformed :
    (∀ (cpu : Int) (raw : List UInt8),
      iteration ⟨⟨cpu, raw, 0⟩, none⟩
        = ([Report.parseError binary.Error.invalidType], Flow.next))
    ∧ consume [shortRead, sampleRead]
        = ([ Action.read shortRead,
             Action.report (Report.parseError binary.Error.invalidType),
             Action.read sampleRead,
             Action.report (Report.parseError binary.Error.invalidType) ],
           LoopEnd.reading) := by
  refine ⟨fun cpu raw => iteration_sample _ rfl, ?_⟩
  have h1 : shortRead.err ≠ some perf.Error.closed := by simp [shortRead]
  have h2 : sampleRead.err ≠ some perf.Error.closed := by simp [sampleRead]
  have i1 : iteration shortRead = ([Report.parseError binary.Error.invalidType], Flow.next) :=
    iteration_sample _ rfl
  have i2 : iteration sampleRead = ([Report.parseError binary.Error.invalidType], Flow.next) :=
    iteration_sample _ rfl
  rw [consume_cons_next _ _ h1, consume_cons_next _ _ h2, i1, i2]
  simp [consume]

/-- C4 (setup failure), on the code: when one of the four probe attachments
fails (the earlier setup calls having succeeded), `main` prints through
`log.Fatalf` and the process exits with status 1 at once: the trace ends with
the fatal line, no handle is closed (not the object set, not the probes
attached before), the reader is not created and nothing is read. -/
theorem C4_attach_failure_exits_without_close
    (b c d e : Bool) (reads : List ReadReturn) :
    main ⟨true, true, false, b, c, d, e, reads⟩
      = ([ Action.setrlimit, Action.loadObjects, Action.kprobe "tcp_v4_connect",
           Action.fatal "opening tcp_v4_connect kprobe" ], Termination.exited 1)
    ∧ main ⟨true, true, true, false, c, d, e, reads⟩
      = ([ Action.setrlimit, Action.loadObjects, Action.kprobe "tcp_v4_connect",
           Action.kretprobe "tcp_v4_connect",
           Action.fatal "opening tcp_v4_connect kretprobe" ], Termination.exited 1)
    ∧ main ⟨true, true, true, true, false, d, e, reads⟩
      = ([ Action.setrlimit, Action.loadObjects, Action.kprobe "tcp_v4_connect",
           Action.kretprobe "tcp_v4_connect", Action.kprobe "tcp_v6_connect",
           Action.fatal "opening tcp_v6_connect kprobe" ], Termination.exited 1)
    ∧ main ⟨true, true, true, true, true, false, e, reads⟩
      = ([ Action.setrlimit, Action.loadObjects, Action.kprobe "tcp_v4_connect",
           Action.kretprobe "tcp_v4_connect", Action.kprobe "tcp_v6_connect",
           Action.kretprobe "tcp_v6_connect",
           Action.fatal "opening tcp_v6_connect kretprobe" ], Termination.exited 1)
    ∧ closesOf (main ⟨true, true, true, false, c, d, e, reads⟩).1 = []
    ∧ createsReader (main ⟨true, true, true, false, c, d, e, reads⟩).1 = false
    ∧ readsOf (main ⟨true, true, true, false, c, d, e, reads⟩).1 = 0 := by
  refine ⟨?_, ?_, ?_, ?_, ?_, ?_, ?_⟩ <;>
    simp [main, fatalf, closesOf, createsReader, readsOf]

/-- C5 (clean shutdown of the consumer loop): the loop has executed `return`
exactly when one of the reads returned the closed indication, and otherwise
it is reading again (it never ends in another way).  When the first closed
indication comes after the reads `pre`, the loop does what it does on `pre`,
then the read that returns closed, and nothing more: no report for the closed
indication, no read of `post`, no event; and `main`, after a successful
setup, returns normally, the deferred closes being all that follows. -/
theorem C5_loop_ends_iff_closed (pre post : List ReadReturn) (c : perf.Record)
    (h : ∀ r ∈ pre, r.err ≠ some perf.Error.closed) :
    (∀ reads : List ReadReturn,
      ((consume reads).2 = LoopEnd.returned ↔ ∃ r ∈ reads, r.err = some perf.Error.closed)
      ∧ ((consume reads).2 = LoopEnd.returned ∨ (consume reads).2 = LoopEnd.reading))
    ∧ (consume pre).2 = LoopEnd.reading
    ∧ consume (pre ++ ⟨c, some perf.Error.closed⟩ :: post)
        = ((consume pre).1 ++ [Action.read ⟨c, some perf.Error.closed⟩], LoopEnd.returned)
    ∧ main ⟨true, true, true, true, true, true, true,
        pre ++ ⟨c, some perf.Error.closed⟩ :: post⟩
        = (setupTrace ++ ((consume pre).1 ++ [Action.read ⟨c, some perf.Error.closed⟩])
            ++ [ Action.close Handle.rd, Action.close Handle.tcpv6krp,
                 Action.close Handle.tcpv6kp, Action.close Handle.tcpv4krp,
                 Action.close Handle.tcpv4kp, Action.close Handle.objs ],
           Termination.returned) := by
  refine ⟨fun reads => ?_, consume_reading pre h, consume_append_closed pre post c h, ?_⟩
  · rw [consume_end]
    by_cases hc : reads.any (fun r => decide (r.err = some perf.Error.closed)) = true
    · have hex : ∃ r ∈ reads, r.err = some perf.Error.closed := by
        simpa [List.any_eq_true] using hc
      simp [hc, hex]
    · have hex : ¬ ∃ r ∈ reads, r.err = some perf.Error.closed := by
        simpa [List.any_eq_true] using hc
      simp [hc, hex]
  · rw [main_setup_ok, consume_append_closed pre post c h]

/-- C5 at a concrete run: two records, then the closed indication, then a
record that is never read. -/
theorem C5_loop_ends_iff_closed_witness :
    (∀ r ∈ [sampleRead, shortRead], r.err ≠ some perf.Error.closed)
    ∧ consume ([sampleRead, shortRead] ++ ⟨⟨0, [], 0⟩, some perf.Error.closed⟩ :: [sampleRead])
        = ((consume [sampleRead, shortRead]).1
            ++ [Action.read ⟨⟨0, [], 0⟩, some perf.Error.closed⟩], LoopEnd.returned) :=
  ⟨by simp [sampleRead, shortRead],
   (C5_loop_ends_iff_closed [sampleRead, shortRead] [sampleRead] ⟨0, [], 0⟩
      (by simp [sampleRead, shortRead])).2.2.1⟩

/-- C6 (loss notification handling): when the reader returns a record whose
lost-sample count `n` is not zero, the iteration makes exactly one report,
the loss report carrying `n`, and goes to the next read; the record's bytes
play no part (no event and no parse error is reported, the decode step is
not reached).  When the same record comes with an error other than the
closed indication, the read-error report comes first and the loss report is
again the only other report.  In the loop: the read, the loss report, then
whatever the loop does on the following reads. -/
theorem C6_loss_reported_once (rec : perf.Record) (rs : List ReadReturn)
    (h : rec.LostSamples ≠ 0) :
    iteration ⟨rec, none⟩ = ([Report.lostSamples rec.LostSamples], Flow.next)
    ∧ (∀ msg : String,
        iteration ⟨rec, some (perf.Error.other msg)⟩
          = ([Report.readError (perf.Error.other msg), Report.lostSamples rec.LostSamples],
             Flow.next))
    ∧ consume (⟨rec, none⟩ :: rs)
        = (Action.read ⟨rec, none⟩ :: Action.report (Report.lostSamples rec.LostSamples)
            :: (consume rs).1, (consume rs).2) := by
  refine ⟨iteration_lost rec h, fun msg => ?_, ?_⟩
  · rw [iteration_other, iteration_lost rec h]
  · rw [consume_cons_next _ _ (by simp), iteration_lost rec h]
    simp

/-- C6 at a concrete record: 3 lost samples, raw bytes that look like an
event record. -/
theorem C6_loss_reported_once_witness :
    (3 : Nat) ≠ 0
    ∧ iteration ⟨⟨1, encodeEvent 8 sampleEvent, 3⟩, none⟩
        = ([Report.lostSamples 3], Flow.next) :=
  ⟨by decide, (C6_loss_reported_once ⟨1, encodeEvent 8 sampleEvent, 3⟩ [] (by decide)).1⟩

/-- C7 (release exactly once): on a run of `main` in which every setup call
succeeds and some read returns the closed indication, `main` returns, and its
trace is the setup, then the loop, then the six closes, each handle once, in
the order reader, v6 kretprobe, v6 kprobe, v4 kretprobe, v4 kprobe, objects;
no handle is closed before the loop has ended. -/
theorem C7_handles_closed_once_in_reverse (reads : List ReadReturn)
    (h : ∃ r ∈ reads, r.err = some perf.Error.closed) :
    main ⟨true, true, true, true, true, true, true, reads⟩
      = (setupTrace ++ (consume reads).1
          ++ [ Action.close Handle.rd, Action.close Handle.tcpv6krp,
               Action.close Handle.tcpv6kp, Action.close Handle.tcpv4krp,
               Action.close Handle.tcpv4kp, Action.close Handle.objs ],
         Termination.returned)
    ∧ (consume reads).2 = LoopEnd.returned
    ∧ closesOf (setupTrace ++ (consume reads).1) = []
    ∧ closesOf (main ⟨true, true, true, true, true, true, true, reads⟩).1
        = [ Handle.rd, Handle.tcpv6krp, Handle.tcpv6kp, Handle.tcpv4krp,
            Handle.tcpv4kp, Handle.objs ] := by
  have hend : (consume reads).2 = LoopEnd.returned := by
    rw [consume_end]
    have : reads.any (fun r => decide (r.err = some perf.Error.closed)) = true := by
      simpa [List.any_eq_true] using h
    simp [this]
  have hsetup : closesOf (setupTrace ++ (consume reads).1) = [] := by
    rw [closesOf_append, closesOf_consume]
    simp [setupTrace, closesOf]
  have hmain := main_setup_ok reads
  rw [hend] at hmain
  refine ⟨hmain, hend, hsetup, ?_⟩
  rw [hmain]
  simp only []
  rw [closesOf_append, hsetup]
  simp [closesOf]

/-- C7 at a concrete run: one record, then the closed indication. -/
theorem C7_handles_closed_once_in_reverse_witness :
    (∃ r ∈ [sampleRead, closedRead], r.err = some perf.Error.closed)
    ∧ closesOf (main ⟨true, true, true, true, true, true, true, [sampleRead, closedRead]⟩).1
        = [ Handle.rd, Handle.tcpv6krp, Handle.tcpv6kp, Handle.tcpv4krp,
            Handle.tcpv4kp, Handle.objs ] :=
  ⟨⟨closedRead, by simp, rfl⟩,
   (C7_handles_closed_once_in_reverse [sampleRead, closedRead]
      ⟨closedRead, by simp, rfl⟩).2.2.2⟩

/-- C8 (steady-state errors are reported once), on the code: a read that
returns an error other than the closed indication is reported twice.  After
the read-error report there is no `continue`: the iteration goes on with the
record returned beside the error and makes the one report it makes for that
record, so two reports in all; the loop then continues.  A read without
error makes exactly one report.  For the zero record beside an error: the
read error, then a parse error. -/
theorem C8_read_error_reported_twice :
    (∀ (rec : perf.Record) (msg : String),
      (iteration ⟨rec, some (perf.Error.other msg)⟩).1.length = 2
      ∧ (iteration ⟨rec, some (perf.Error.other msg)⟩).2 = Flow.next
      ∧ (iteration ⟨rec, none⟩).1.length = 1
      ∧ (iteration ⟨rec, none⟩).2 = Flow.next)
    ∧ iteration ⟨⟨0, [], 0⟩, some (perf.Error.other "epoll wait")⟩
        = ([ Report.readError (perf.Error.other "epoll wait"),
             Report.parseError binary.Error.invalidType ], Flow.next) := by
  refine ⟨fun rec msg => ?_, ?_⟩
  · have hn := iteration_none_flow rec
    rw [iteration_other]
    simp [hn.1, hn.2]
  · rw [iteration_other, iteration_sample _ rfl]

/-- C9 (pass-through reporting), on the code: whatever the reads are, no
event is ever handed to the sink; a well-formed record without lost samples
followed by the closed indication yields a parse-error report and no event
before the loop returns. -/
theorem C9_no_event_reaches_sink :
    (∀ reads : List ReadReturn, eventsOf (consume reads).1 = [])
    ∧ consume [sampleRead, closedRead]
        = ([ Action.read sampleRead,
             Action.report (Report.parseError binary.Error.invalidType),
             Action.read closedRead ], LoopEnd.returned) := by
  refine ⟨eventsOf_consume, ?_⟩
  have h := consume_append_closed [sampleRead] [] ⟨0, [], 0⟩ (by simp [sampleRead])
  have i : iteration sampleRead = ([Report.parseError binary.Error.invalidType], Flow.next) :=
    iteration_sample _ rfl
  have hs : consume [sampleRead]
      = ([Action.read sampleRead, Action.report (Report.parseError binary.Error.invalidType)],
          LoopEnd.reading) := by
    rw [consume_cons_next _ _ (by simp [sampleRead]), i]
    simp [consume]
  rw [hs] at h
  simpa [closedRead] using h

/-- C10 (trailing bytes), on the code: a record of 100 bytes, the 82 bytes of
a well-formed record followed by 18 more, is not decoded: `binary.Read`
returns the error "invalid type" on it and on its first 82 bytes alike, and
the loop reports it as a parse error. -/
theorem C10_long_record_reported_malformed :
    (encodeEvent 8 sampleEvent ++ List.replicate 18 0).length = 100
    ∧ binary.Read eventType (encodeEvent 8 sampleEvent ++ List.replicate 18 0)
        = binary.Result.error binary.Error.invalidType
    ∧ binary.Read eventType ((encodeEvent 8 sampleEvent ++ List.replicate 18 0).take 82)
        = binary.Result.error binary.Error.invalidType
    ∧ iteration ⟨⟨0, encodeEvent 8 sampleEvent ++ List.replicate 18 0, 0⟩, none⟩
        = ([Report.parseError binary.Error.invalidType], Flow.next) :=
  ⟨by simp [encodeEvent, sampleEvent, leBytes], Read_eventType _, Read_eventType _,
   iteration_sample _ rfl⟩

end TcpConnLat
